import Mathlib

/-!
Verification of the mmpd rule engine: the macro data model and evaluation
(`macros.rs`), the first-match-wins dispatch loop (`main.rs`, `task_listen`),
the action runner (`actions.rs`), and the version-1 key-sequence action
resolver (`config/versions/version1/actions/key_sequence.rs`).

Pure code is embedded as Lean functions; the side-effecting `ActionRunner`
is embedded as a function producing the trace of external adapter calls it
makes. Trait objects defined outside the four source files (`State`,
`EventMatcher`, the precondition vocabulary) are modelled abstractly by
their interfaces, as the spec describes them.
-/

namespace MMPD

/-- Modelled from the spec: `StringMatcher` (match_checker.rs is not among the
source files). Variant over Equals / Contains / StartsWith / EndsWith / Any;
a pure predicate over a candidate text. Only the shape is needed here: the
claims under verification never inspect a scope matcher, they only pass the
`Scope` record to the abstract `State` query. -/
inductive StringMatcher : Type
| Equals (text : String)
| Contains (text : String)
| StartsWith (text : String)
| EndsWith (text : String)
| Any

/-- `Scope` from macros.rs: optional window-class and window-name matchers. -/
structure Scope : Type where
  window_class : Option StringMatcher
  window_name : Option StringMatcher

/-- Modelled from the spec: `State` (state.rs is not among the source files) is
the mutable runtime context, exposed to macro evaluation purely through the
two capability-style queries used in macros.rs: `matches_scope` over an
optional `Scope`, and `matches` over a precondition. A value of this
structure is one state snapshot; `Pre` is the abstract precondition
vocabulary, which the spec leaves open for extension. -/
structure State (Pre : Type) : Type where
  matches_scope : Option Scope → Bool
  «matches» : Pre → Bool

/-- Modelled from the spec: `EventMatcher` (event_matching.rs is not among the
source files) is a polymorphic predicate over event and state,
`matches(event, state) -> bool`; `Ev` is the abstract event type. -/
structure EventMatcher (Ev Pre : Type) : Type where
  «matches» : Ev → State Pre → Bool

/-- `Macro` from macros.rs: name, event matchers, optional preconditions,
actions, optional scope. `Act` abstracts the action payload (the engine
never inspects it during matching). -/
structure Macro (Ev Pre Act : Type) : Type where
  name : Option String
  match_events : List (EventMatcher Ev Pre)
  required_preconditions : Option (List Pre)
  actions : List Act
  scope : Option Scope

/-- `MacroBuilder` from macros.rs: the mutable staging record with the same
fields; `build` moves them into a `Macro`. -/
structure MacroBuilder (Ev Pre Act : Type) : Type where
  name : Option String
  match_events : List (EventMatcher Ev Pre)
  required_preconditions : Option (List Pre)
  actions : List Act
  scope : Option Scope

/-- `MacroBuilder::from_event_matcher`. -/
def MacroBuilder.from_event_matcher {Ev Pre Act : Type}
    (event_matcher : EventMatcher Ev Pre) : MacroBuilder Ev Pre Act :=
  ⟨none, [event_matcher], none, [], none⟩

/-- `MacroBuilder::from_event_matchers`. -/
def MacroBuilder.from_event_matchers {Ev Pre Act : Type}
    (event_matchers : List (EventMatcher Ev Pre)) : MacroBuilder Ev Pre Act :=
  ⟨none, event_matchers, none, [], none⟩

/-- `MacroBuilder::set_event_matchers`. -/
def MacroBuilder.set_event_matchers {Ev Pre Act : Type}
    (b : MacroBuilder Ev Pre Act) (event_matchers : List (EventMatcher Ev Pre)) :
    MacroBuilder Ev Pre Act :=
  { b with match_events := event_matchers }

/-- `MacroBuilder::add_event_matcher`. -/
def MacroBuilder.add_event_matcher {Ev Pre Act : Type}
    (b : MacroBuilder Ev Pre Act) (event_matcher : EventMatcher Ev Pre) :
    MacroBuilder Ev Pre Act :=
  { b with match_events := b.match_events ++ [event_matcher] }

/-- `MacroBuilder::set_actions`. -/
def MacroBuilder.set_actions {Ev Pre Act : Type}
    (b : MacroBuilder Ev Pre Act) (actions : List Act) : MacroBuilder Ev Pre Act :=
  { b with actions := actions }

/-- `MacroBuilder::add_action`. -/
def MacroBuilder.add_action {Ev Pre Act : Type}
    (b : MacroBuilder Ev Pre Act) (action : Act) : MacroBuilder Ev Pre Act :=
  { b with actions := b.actions ++ [action] }

/-- `MacroBuilder::set_name`. -/
def MacroBuilder.set_name {Ev Pre Act : Type}
    (b : MacroBuilder Ev Pre Act) (name : String) : MacroBuilder Ev Pre Act :=
  { b with name := some name }

/-- `MacroBuilder::set_preconditions`. -/
def MacroBuilder.set_preconditions {Ev Pre Act : Type}
    (b : MacroBuilder Ev Pre Act) (preconditions : List Pre) : MacroBuilder Ev Pre Act :=
  { b with required_preconditions := some preconditions }

/-- `MacroBuilder::add_precondition`: appends to the existing list, or starts a
singleton list when none was set. -/
def MacroBuilder.add_precondition {Ev Pre Act : Type}
    (b : MacroBuilder Ev Pre Act) (precondition : Pre) : MacroBuilder Ev Pre Act :=
  match b.required_preconditions with
  | some preconditions => { b with required_preconditions := some (preconditions ++ [precondition]) }
  | none => { b with required_preconditions := some [precondition] }

/-- `MacroBuilder::set_scope`. -/
def MacroBuilder.set_scope {Ev Pre Act : Type}
    (b : MacroBuilder Ev Pre Act) (scope : Scope) : MacroBuilder Ev Pre Act :=
  { b with scope := some scope }

/-- `MacroBuilder::build`: moves the staged fields into a `Macro`. It is total:
no field is checked. -/
def MacroBuilder.build {Ev Pre Act : Type} (b : MacroBuilder Ev Pre Act) :
    Macro Ev Pre Act :=
  ⟨b.name, b.match_events, b.required_preconditions, b.actions, b.scope⟩

/-- `Macro::matches_event` from macros.rs: any event matcher in `match_events`
matches the event. -/
def Macro.matches_event {Ev Pre Act : Type} (m : Macro Ev Pre Act)
    (event : Ev) (state : State Pre) : Bool :=
  m.match_events.any (fun event_matcher => event_matcher.«matches» event state)

/-- `Macro::evaluate` from macros.rs: return early with `none` when the scope
does not match; then when some required precondition fails; then return the
action list exactly when some event matcher matches. -/
def Macro.evaluate {Ev Pre Act : Type} (m : Macro Ev Pre Act)
    (event : Ev) (state : State Pre) : Option (List Act) :=
  if ! state.matches_scope m.scope then
    none
  else if (match m.required_preconditions with
           | some conditions => conditions.any (fun condition => ! state.«matches» condition)
           | none => false) then
    none
  else if m.matches_event event state then
    some m.actions
  else
    none

/-- The dispatch loop of `task_listen` in main.rs (lines 131-145): iterate the
ordered macro list, and the first macro whose `evaluate` returns an action
list wins (`break`); the macros after the winner are never evaluated, and
when no macro matches nothing is dispatched. The function returns the
dispatched action list, `none` when the event is dropped. -/
def task_listen_dispatch {Ev Pre Act : Type} (macros : List (Macro Ev Pre Act))
    (event : Ev) (state : State Pre) : Option (List Act) :=
  match macros with
  | [] => none
  | macro_item :: rest =>
    match macro_item.evaluate event state with
    | some actions => some actions
    | none => task_listen_dispatch rest event state

/-! ## Actions and the action runner (actions.rs)

The runner performs side effects through the keyboard adapter, the process
spawner and a fixed delay; it is embedded as a function returning the ordered
trace of external adapter calls made, with the operating system's response to
a spawn supplied by a `ShellEnv`. -/

/-- `Action` from actions.rs. `count` is a `usize`, so `Nat`; `args` and
`env_vars` of `Shell` are optional lists, and `Combination` nests actions. -/
inductive Action : Type
| KeySequence (sequence : String) (count : Nat)
| EnterText (text : String) (count : Nat)
| Shell (command : String) (args : Option (List String)) (env_vars : Option (List (String × String)))
| Combination (actions : List Action)

/-- `DELAY_BETWEEN_KEYS_US` from actions.rs. -/
def DELAY_BETWEEN_KEYS_US : Nat := 100

/-- One call from the runner to an external adapter:
`KeyboardControlAdapter::send_keysequence`, `KeyboardControlAdapter::send_text`,
or spawning a process and observing its exit status (`cmd.status()`). The
status recorded in `shell_status` is whatever the operating system returned;
actions.rs discards it (`let _ = cmd.status()`). -/
inductive AdapterCall : Type
| send_keysequence (sequence : String) (delay_us : Nat)
| send_text (text : String) (delay_us : Nat)
| shell_status (command : String) (args : List String) (env_vars : List (String × String)) (status : Int)

/-- The operating system side of `run_shell`: the exit status `cmd.status()`
observes for a given command, argument list and environment. A status of 0 is
success; any other value (or the convention of choice for a spawn failure) is
a failure. The runner's behaviour is quantified over every such environment. -/
structure ShellEnv : Type where
  status : String → List String → List (String × String) → Int

/-- `ActionRunner::run_key_sequence`: `for _ in 0..count` send the sequence. -/
def ActionRunner.run_key_sequence (sequence : String) (count : Nat) : List AdapterCall :=
  (List.range count).map (fun _ => AdapterCall.send_keysequence sequence DELAY_BETWEEN_KEYS_US)

/-- `ActionRunner::run_enter_text`: `for _ in 0..count` send the text. -/
def ActionRunner.run_enter_text (text : String) (count : Nat) : List AdapterCall :=
  (List.range count).map (fun _ => AdapterCall.send_text text DELAY_BETWEEN_KEYS_US)

/-- `ActionRunner::run_shell`: build the command with its arguments and
environment variables, spawn it and observe (then discard) the exit status. -/
def ActionRunner.run_shell (env : ShellEnv) (command : String)
    (args : Option (List String)) (env_vars : Option (List (String × String))) :
    List AdapterCall :=
  let arg_list := match args with
    | some args => args
    | none => []
  let env_list := match env_vars with
    | some env_vars => env_vars
    | none => []
  [AdapterCall.shell_status command arg_list env_list (env.status command arg_list env_list)]

mutual

/-- `ActionRunner::run`: dispatch on the action variant; a `Combination` runs
its children in order (`for action in actions { self.run(action) }`). -/
def ActionRunner.run (env : ShellEnv) : Action → List AdapterCall
  | Action.KeySequence sequence count => ActionRunner.run_key_sequence sequence count
  | Action.EnterText text count => ActionRunner.run_enter_text text count
  | Action.Shell command args env_vars => ActionRunner.run_shell env command args env_vars
  | Action.Combination actions => ActionRunner.run_list env actions

/-- The `for action in actions` loop inside `ActionRunner::run` for
`Combination`: the concatenated traces of the children, in listed order. -/
def ActionRunner.run_list (env : ShellEnv) : List Action → List AdapterCall
  | [] => []
  | action :: rest => ActionRunner.run env action ++ ActionRunner.run_list env rest

end

/-! ## Version-1 key-sequence action resolution (key_sequence.rs) -/

/-- Modelled from the spec: `RawConfig`, the Untyped Document Model
(config/raw_config.rs is not among the source files): null, boolean, integer
(i64, so `Int`), float, string, ordered list, string-keyed map. The f64
payload of `Float` is modelled opaquely by its textual form, since nothing
verified here inspects it; the map is a key/value list looked up by key. -/
inductive RawConfig : Type
| Null
| Bool (b : Bool)
| Integer (i : Int)
| Float (text : String)
| String (s : String)
| Array (items : List RawConfig)
| Hash (entries : List (String × RawConfig))

/-- Key lookup in a `RawConfig::Hash`. -/
def hash_lookup : List (String × RawConfig) → String → Option RawConfig
  | [], _ => none
  | (k, v) :: rest, key => if k == key then some v else hash_lookup rest key

/-- Modelled from the spec: `AccessHelpers::get_string`, the typed accessor —
the value of the field when it is present and is a `RawConfig::String`,
`none` otherwise. -/
def get_string (entries : List (String × RawConfig)) (key : String) : Option String :=
  match hash_lookup entries key with
  | some (RawConfig.String s) => some s
  | _ => none

/-- Modelled from the spec: `AccessHelpers::get_integer`, the typed accessor —
the value of the field when it is present and is a `RawConfig::Integer`,
`none` otherwise (anything that is not an integer is treated as absent). -/
def get_integer (entries : List (String × RawConfig)) (key : String) : Option Int :=
  match hash_lookup entries key with
  | some (RawConfig.Integer i) => some i
  | _ => none

/-- `ConfigError` from config.rs, as key_sequence.rs uses it: `InvalidConfig`
with a human-readable description. -/
inductive ConfigError : Type
| InvalidConfig (description : String)

/-- `build_action_key_sequence` from key_sequence.rs: a bare string is a
key sequence with count 1; a hash needs a `sequence` string field, reads an
optional integer `count` field defaulting to 1, and rejects a negative count;
anything else (or a missing data field) is an `InvalidConfig` error. The
message strings are the ones in the source. -/
def build_action_key_sequence (raw_data : Option RawConfig) : Except ConfigError Action :=
  match raw_data with
  | none =>
    Except.error (ConfigError.InvalidConfig "Action key_sequence: missing data field")
  | some (RawConfig.String sequence) => Except.ok (Action.KeySequence sequence 1)
  | some (RawConfig.Hash hash) =>
    match get_string hash "sequence" with
    | none =>
      Except.error (ConfigError.InvalidConfig
        "Action key_sequence: data field doesn't contain a 'sequence' field")
    | some sequence =>
      let count : Int := (get_integer hash "count").getD 1
      if count < 0 then
        Except.error (ConfigError.InvalidConfig
          ("Action key_sequence: count should be 0 or more, found " ++ toString count))
      else
        Except.ok (Action.KeySequence sequence count.toNat)
  | some _ =>
    Except.error (ConfigError.InvalidConfig
      "Action key_sequence: data field should be either string or hash, but was neither")

/-! ## Concrete instances

Small closed macros, matchers and states, used to evaluate the theorems
below on concrete inputs. Events, preconditions and action payloads are
instantiated at `Nat`. -/

/-- An event matcher that accepts every event. -/
def em_any : EventMatcher Nat Nat := ⟨fun _ _ => true⟩

/-- An event matcher that rejects every event. -/
def em_never : EventMatcher Nat Nat := ⟨fun _ _ => false⟩

/-- A state snapshot in which every scope and every precondition matches. -/
def state_permissive : State Nat := ⟨fun _ => true, fun _ => true⟩

/-- A macro that matches every event, with action payload `[1]`. -/
def mac_first : Macro Nat Nat Nat := ⟨some "first", [em_any], none, [1], none⟩

/-- A second macro that also matches every event, with action payload `[2]`. -/
def mac_second : Macro Nat Nat Nat := ⟨some "second", [em_any], none, [2], none⟩

/-- A macro whose single event matcher rejects every event. -/
def mac_never : Macro Nat Nat Nat := ⟨some "never", [em_never], none, [3], none⟩

/-- A macro with two event matchers, one rejecting and one accepting. -/
def mac_mixed : Macro Nat Nat Nat := ⟨some "mixed", [em_never, em_any], none, [4], none⟩

/-! ## Helper lemmas -/

/-- `List.any` is determined by the pointwise values of its predicate. -/
theorem list_any_congr {α : Type} {f g : α → Bool} {l : List α}
    (h : ∀ x ∈ l, f x = g x) : l.any f = l.any g := by
  induction l with
  | nil => rfl
  | cons x rest ih =>
    simp only [List.any_cons]
    rw [h x (List.mem_cons_self x rest), ih (fun y hy => h y (List.mem_cons_of_mem x hy))]

/-! ## The claims -/

/-- C1: the dispatch loop of `task_listen` calls `evaluate` on the macros in
declaration order and dispatches exactly the action list of the first macro
whose `evaluate` returns `some`. The macros after the winner are not
evaluated: the second conjunct holds for every list `after`, so the result
never depends on anything past the winner. When no macro matches, no action
is dispatched and no error is raised (the loop is total and returns `none`,
first conjunct). -/
theorem task_listen_dispatch_first_match_wins (Ev Pre Act : Type)
    (event : Ev) (state : State Pre) :
    (∀ macros : List (Macro Ev Pre Act),
      (∀ m ∈ macros, m.evaluate event state = none) →
        task_listen_dispatch macros event state = none) ∧
    (∀ (before after : List (Macro Ev Pre Act)) (winner : Macro Ev Pre Act)
        (actions : List Act),
      (∀ m ∈ before, m.evaluate event state = none) →
      winner.evaluate event state = some actions →
        task_listen_dispatch (before ++ winner :: after) event state = some actions) := by
  constructor
  · intro macros h
    induction macros with
    | nil => rfl
    | cons m rest ih =>
      have hm := h m (List.mem_cons_self m rest)
      have hrest := ih (fun m' hm' => h m' (List.mem_cons_of_mem m hm'))
      simp [task_listen_dispatch, hm, hrest]
  · intro before after winner actions hbefore hwin
    induction before with
    | nil => simp [task_listen_dispatch, hwin]
    | cons m rest ih =>
      have hm := hbefore m (List.mem_cons_self m rest)
      have hrest := ih (fun m' hm' => hbefore m' (List.mem_cons_of_mem m hm'))
      simp [task_listen_dispatch, hm, hrest]

/-- Witness for C1: in the rule set [mac_never, mac_first, mac_second], both
mac_first and mac_second match event 0, and dispatch yields exactly
mac_first's actions `[1]`, never mac_second's. -/
theorem task_listen_dispatch_first_match_wins_witness :
    task_listen_dispatch [mac_never, mac_first, mac_second] 0 state_permissive = some [1] := by
  have hbefore : ∀ m ∈ [mac_never], m.evaluate (0 : Nat) state_permissive = none := by
    intro m hm
    rw [List.mem_singleton] at hm
    subst hm
    rfl
  have hwin : mac_first.evaluate (0 : Nat) state_permissive = some [1] := rfl
  exact (task_listen_dispatch_first_match_wins Nat Nat Nat 0 state_permissive).2
    [mac_never] [mac_second] mac_first [1] hbefore hwin

/-- C2: `Macro::evaluate` returns `none` when the state does not match the
macro's scope; otherwise `none` when some required precondition fails
(a macro with no precondition list requires nothing, so the precondition
list is read through `Option.getD _ []`); otherwise `none` when no event
matcher matches; and otherwise `some` of the macro's action list. The four
conjuncts cover the checks in the source's order — scope, then
preconditions, then event matchers — and together they determine `evaluate`
completely. -/
theorem evaluate_checks_scope_preconditions_event (Ev Pre Act : Type)
    (m : Macro Ev Pre Act) (event : Ev) (state : State Pre) :
    (state.matches_scope m.scope = false → m.evaluate event state = none) ∧
    (state.matches_scope m.scope = true →
      (∃ p ∈ m.required_preconditions.getD [], state.«matches» p = false) →
      m.evaluate event state = none) ∧
    (state.matches_scope m.scope = true →
      (∀ p ∈ m.required_preconditions.getD [], state.«matches» p = true) →
      m.matches_event event state = false →
      m.evaluate event state = none) ∧
    (state.matches_scope m.scope = true →
      (∀ p ∈ m.required_preconditions.getD [], state.«matches» p = true) →
      m.matches_event event state = true →
      m.evaluate event state = some m.actions) := by
  refine ⟨?_, ?_, ?_, ?_⟩
  · intro hs
    simp [Macro.evaluate, hs]
  · intro hs hex
    obtain ⟨p, hp_mem, hp_false⟩ := hex
    cases hpre : m.required_preconditions with
    | none => rw [hpre] at hp_mem; simp at hp_mem
    | some conditions =>
      rw [hpre] at hp_mem
      simp only [Option.getD_some] at hp_mem
      have hany : conditions.any (fun condition => ! state.«matches» condition) = true := by
        rw [List.any_eq_true]
        exact ⟨p, hp_mem, by simp [hp_false]⟩
      simp [Macro.evaluate, hs, hpre, hany]
  · intro hs hall hev
    cases hpre : m.required_preconditions with
    | none => simp [Macro.evaluate, hs, hpre, hev]
    | some conditions =>
      have hany : conditions.any (fun condition => ! state.«matches» condition) = false := by
        rw [List.any_eq_false]
        intro p hp_mem
        rw [hpre] at hall
        simp only [Option.getD_some] at hall
        simp [hall p hp_mem]
      simp [Macro.evaluate, hs, hpre, hany, hev]
  · intro hs hall hev
    cases hpre : m.required_preconditions with
    | none => simp [Macro.evaluate, hs, hpre, hev]
    | some conditions =>
      have hany : conditions.any (fun condition => ! state.«matches» condition) = false := by
        rw [List.any_eq_false]
        intro p hp_mem
        rw [hpre] at hall
        simp only [Option.getD_some] at hall
        simp [hall p hp_mem]
      simp [Macro.evaluate, hs, hpre, hany, hev]

/-- Witness for C2: a state that rejects every scope makes mac_first evaluate
to `none` (first conjunct), and the permissive state makes it evaluate to its
action list (last conjunct). -/
theorem evaluate_checks_scope_preconditions_event_witness :
    mac_first.evaluate 0 (⟨fun _ => false, fun _ => true⟩ : State Nat) = none ∧
    mac_first.evaluate 0 state_permissive = some [1] := by
  constructor
  · exact (evaluate_checks_scope_preconditions_event Nat Nat Nat mac_first 0
      ⟨fun _ => false, fun _ => true⟩).1 rfl
  · exact (evaluate_checks_scope_preconditions_event Nat Nat Nat mac_first 0
      state_permissive).2.2.2 rfl (by intro p hp; simp [mac_first] at hp) rfl

/-- C5: for a macro whose scope and preconditions pass, `evaluate` returns the
macro's action list exactly when at least one event matcher in `match_events`
matches the event — disjunction across the list. -/
theorem evaluate_some_iff_any_matcher (Ev Pre Act : Type)
    (m : Macro Ev Pre Act) (event : Ev) (state : State Pre)
    (hscope : state.matches_scope m.scope = true)
    (hpre : ∀ p ∈ m.required_preconditions.getD [], state.«matches» p = true) :
    m.evaluate event state = some m.actions ↔
      ∃ em ∈ m.match_events, em.«matches» event state = true := by
  have hany : (match m.required_preconditions with
      | some conditions => conditions.any (fun condition => ! state.«matches» condition)
      | none => false) = false := by
    cases hp : m.required_preconditions with
    | none => rfl
    | some conditions =>
      rw [List.any_eq_false]
      intro p hp_mem
      rw [hp] at hpre
      simp only [Option.getD_some] at hpre
      simp [hpre p hp_mem]
  rw [Macro.evaluate, hscope]
  simp only [Bool.not_true, Bool.false_eq_true, if_false, hany, Macro.matches_event]
  by_cases hev : (m.match_events.any fun event_matcher => event_matcher.«matches» event state) = true
  · rw [if_pos hev]
    rw [List.any_eq_true] at hev
    simp [hev]
  · rw [if_neg hev]
    rw [Bool.not_eq_true, List.any_eq_false] at hev
    constructor
    · intro h
      exact absurd h (by simp)
    · intro ⟨em, hmem, hm⟩
      exact absurd hm (hev em hmem)

/-- Witness for C5: mac_mixed has two event matchers of which only the second
accepts, and with passing scope and preconditions it fires with its action
list `[4]`. -/
theorem evaluate_some_iff_any_matcher_witness :
    mac_mixed.evaluate 0 state_permissive = some [4] := by
  refine (evaluate_some_iff_any_matcher Nat Nat Nat mac_mixed 0 state_permissive rfl
    (by intro p hp; simp [mac_mixed] at hp)).2 ?_
  refine ⟨em_any, ?_, rfl⟩
  simp [mac_mixed]

/-- C9: `Macro::evaluate` is a pure function of what it observes: two state
snapshots that agree on the scope query, on every precondition query, and on
every event matcher of the macro, produce the same result — in particular,
evaluating the same (event, state-snapshot) pair twice with no mutation in
between yields the same action list (or `none`) both times. -/
theorem evaluate_deterministic (Ev Pre Act : Type)
    (m : Macro Ev Pre Act) (event : Ev) (s₁ s₂ : State Pre)
    (hscope : s₁.matches_scope m.scope = s₂.matches_scope m.scope)
    (hpre : ∀ p, s₁.«matches» p = s₂.«matches» p)
    (hem : ∀ em ∈ m.match_events, em.«matches» event s₁ = em.«matches» event s₂) :
    m.evaluate event s₁ = m.evaluate event s₂ := by
  have h₁ : (match m.required_preconditions with
      | some conditions => conditions.any (fun condition => ! s₁.«matches» condition)
      | none => false) = (match m.required_preconditions with
      | some conditions => conditions.any (fun condition => ! s₂.«matches» condition)
      | none => false) := by
    cases m.required_preconditions with
    | none => rfl
    | some conditions =>
      exact list_any_congr (fun p _ => by rw [hpre p])
  have h₂ : m.matches_event event s₁ = m.matches_event event s₂ :=
    list_any_congr (fun em hmem => hem em hmem)
  rw [Macro.evaluate, Macro.evaluate, hscope, h₁, h₂]

/-- Witness for C9: evaluating mac_mixed twice against the same permissive
snapshot yields the same result both times. -/
theorem evaluate_deterministic_witness :
    mac_mixed.evaluate 0 state_permissive = mac_mixed.evaluate 0 state_permissive :=
  evaluate_deterministic Nat Nat Nat mac_mixed 0 state_permissive state_permissive rfl
    (fun _ => rfl) (fun _ _ => rfl)

/-- Counterexample to C3: `MacroBuilder::from_event_matchers` accepts the empty
matcher list and `build` checks nothing and cannot fail (it is total, with no
error channel in its type), so a `Macro` whose `match_events` list is empty is
constructed — no construction error exists in the code. -/
theorem from_event_matchers_empty_builds_macro :
    ((MacroBuilder.from_event_matchers [] : MacroBuilder Nat Nat Nat).build).match_events = [] :=
  rfl

/-- C3 amended: construction places no constraint on the number of event
matchers — `from_event_matchers` followed by `build` yields a macro holding
exactly the given matcher list, the empty list included — but a macro whose
`match_events` list is empty can never fire: `evaluate` returns `none` on it
for every event and state. -/
theorem build_keeps_matchers_and_empty_never_fires (Ev Pre Act : Type) :
    (∀ event_matchers : List (EventMatcher Ev Pre),
      ((MacroBuilder.from_event_matchers event_matchers
        : MacroBuilder Ev Pre Act).build).match_events = event_matchers) ∧
    (∀ (m : Macro Ev Pre Act) (event : Ev) (state : State Pre),
      m.match_events = [] → m.evaluate event state = none) := by
  constructor
  · intro event_matchers
    rfl
  · intro m event state hempty
    have hev : m.matches_event event state = false := by
      rw [Macro.matches_event, hempty]
      rfl
    rw [Macro.evaluate]
    by_cases hs : (! state.matches_scope m.scope) = true
    · rw [if_pos hs]
    · rw [if_neg hs]
      by_cases hp : (match m.required_preconditions with
          | some conditions => conditions.any (fun condition => ! state.«matches» condition)
          | none => false) = true
      · rw [if_pos hp]
      · rw [if_neg hp, hev]
        simp

/-- Witness for C3 amended: the macro built from no matchers exists and never
fires, here at event 0 under the permissive state. -/
theorem build_keeps_matchers_and_empty_never_fires_witness :
    ((MacroBuilder.from_event_matchers [] : MacroBuilder Nat Nat Nat).build).evaluate
      0 state_permissive = none :=
  (build_keeps_matchers_and_empty_never_fires Nat Nat Nat).2
    ((MacroBuilder.from_event_matchers [] : MacroBuilder Nat Nat Nat).build)
    0 state_permissive rfl

/-- C7: `ActionRunner::run` on a `Combination` executes every child in the
listed order — its trace is the concatenation of the children's traces, in
order — and this holds for every shell environment, in particular for ones in
which every spawned process exits with a failure status: a child's failure
never prevents the remaining children from executing, since the trace shape
does not depend on the observed statuses. Concretely (second conjunct),
Combination([Shell{command:"/bin/false"}, EnterText("x",1)]) under an
environment where every process fails with status 1 still performs both the
spawn and the text entry. -/
theorem run_combination_in_order_best_effort :
    (∀ (env : ShellEnv) (actions : List Action),
      ActionRunner.run env (Action.Combination actions)
        = (actions.map (ActionRunner.run env)).flatten) ∧
    (ActionRunner.run ⟨fun _ _ _ => 1⟩
        (Action.Combination [Action.Shell "/bin/false" none none, Action.EnterText "x" 1])
      = [AdapterCall.shell_status "/bin/false" [] [] 1,
         AdapterCall.send_text "x" DELAY_BETWEEN_KEYS_US]) := by
  constructor
  · intro env actions
    rw [ActionRunner.run]
    induction actions with
    | nil => rfl
    | cons action rest ih =>
      rw [ActionRunner.run_list, List.map_cons, List.flatten_cons, ih]
  · rfl

/-- C8: `ActionRunner::run` on `KeySequence(sequence, n)` calls the keyboard
adapter's `send_keysequence` exactly `n` times, and on `EnterText(text, n)`
calls `send_text` exactly `n` times — the trace is `n` repetitions of the one
adapter call — so a count of 0 performs no call at all (second conjunct). -/
theorem run_count_repeats_exactly :
    (∀ (env : ShellEnv) (sequence : String) (n : Nat),
      ActionRunner.run env (Action.KeySequence sequence n)
          = List.replicate n (AdapterCall.send_keysequence sequence DELAY_BETWEEN_KEYS_US) ∧
      ActionRunner.run env (Action.EnterText sequence n)
          = List.replicate n (AdapterCall.send_text sequence DELAY_BETWEEN_KEYS_US)) ∧
    (∀ (env : ShellEnv) (sequence : String),
      ActionRunner.run env (Action.KeySequence sequence 0) = [] ∧
      ActionRunner.run env (Action.EnterText sequence 0) = []) := by
  have hks : ∀ (env : ShellEnv) (sequence : String) (n : Nat),
      ActionRunner.run env (Action.KeySequence sequence n)
        = List.replicate n (AdapterCall.send_keysequence sequence DELAY_BETWEEN_KEYS_US) := by
    intro env sequence n
    rw [ActionRunner.run, ActionRunner.run_key_sequence, List.map_const']
    rw [List.length_range]
  have het : ∀ (env : ShellEnv) (sequence : String) (n : Nat),
      ActionRunner.run env (Action.EnterText sequence n)
        = List.replicate n (AdapterCall.send_text sequence DELAY_BETWEEN_KEYS_US) := by
    intro env sequence n
    rw [ActionRunner.run, ActionRunner.run_enter_text, List.map_const']
    rw [List.length_range]
  exact ⟨fun env sequence n => ⟨hks env sequence n, het env sequence n⟩,
    fun env sequence => ⟨hks env sequence 0, het env sequence 0⟩⟩

/-- C4: `build_action_key_sequence` returns `Err(ConfigError::InvalidConfig)`
exactly when the input is absent, or is neither a string nor a hash, or is a
hash without a string `sequence` field, or is a hash whose `count` field is a
negative integer (first conjunct). The error messages name the offending
field: a missing `sequence` field and a negative `count` produce the exact
messages of the source (second and third conjuncts) — in particular a
negative count is reported, never silently clamped. -/
theorem build_action_key_sequence_error_iff :
    (∀ raw_data : Option RawConfig,
      (∃ msg, build_action_key_sequence raw_data
          = Except.error (ConfigError.InvalidConfig msg)) ↔
        (raw_data = none ∨
         (∃ v, raw_data = some v ∧ (∀ s, v ≠ RawConfig.String s) ∧
           (∀ entries, v ≠ RawConfig.Hash entries)) ∨
         (∃ entries, raw_data = some (RawConfig.Hash entries) ∧
           get_string entries "sequence" = none) ∨
         (∃ entries n, raw_data = some (RawConfig.Hash entries) ∧
           get_integer entries "count" = some n ∧ n < 0))) ∧
    (∀ entries, get_string entries "sequence" = none →
      build_action_key_sequence (some (RawConfig.Hash entries))
        = Except.error (ConfigError.InvalidConfig
            "Action key_sequence: data field doesn't contain a 'sequence' field")) ∧
    (∀ entries sequence n, get_string entries "sequence" = some sequence →
      get_integer entries "count" = some n → n < 0 →
      build_action_key_sequence (some (RawConfig.Hash entries))
        = Except.error (ConfigError.InvalidConfig
            ("Action key_sequence: count should be 0 or more, found " ++ toString n))) := by
  have hseq_msg : ∀ entries, get_string entries "sequence" = none →
      build_action_key_sequence (some (RawConfig.Hash entries))
        = Except.error (ConfigError.InvalidConfig
            "Action key_sequence: data field doesn't contain a 'sequence' field") := by
    intro entries hs
    simp [build_action_key_sequence, hs]
  have hneg_msg : ∀ entries sequence n, get_string entries "sequence" = some sequence →
      get_integer entries "count" = some n → n < 0 →
      build_action_key_sequence (some (RawConfig.Hash entries))
        = Except.error (ConfigError.InvalidConfig
            ("Action key_sequence: count should be 0 or more, found " ++ toString n)) := by
    intro entries sequence n hs hc hneg
    simp [build_action_key_sequence, hs, hc, hneg]
  refine ⟨?_, hseq_msg, hneg_msg⟩
  intro raw_data
  cases raw_data with
  | none => exact iff_of_true ⟨_, rfl⟩ (Or.inl rfl)
  | some v =>
    cases v with
    | Null =>
      refine iff_of_true ⟨_, rfl⟩ (Or.inr (Or.inl ⟨RawConfig.Null, rfl, ?_, ?_⟩))
      · intro s h
        exact RawConfig.noConfusion h
      · intro entries h
        exact RawConfig.noConfusion h
    | Bool b =>
      refine iff_of_true ⟨_, rfl⟩ (Or.inr (Or.inl ⟨RawConfig.Bool b, rfl, ?_, ?_⟩))
      · intro s h
        exact RawConfig.noConfusion h
      · intro entries h
        exact RawConfig.noConfusion h
    | Integer i =>
      refine iff_of_true ⟨_, rfl⟩ (Or.inr (Or.inl ⟨RawConfig.Integer i, rfl, ?_, ?_⟩))
      · intro s h
        exact RawConfig.noConfusion h
      · intro entries h
        exact RawConfig.noConfusion h
    | Float t =>
      refine iff_of_true ⟨_, rfl⟩ (Or.inr (Or.inl ⟨RawConfig.Float t, rfl, ?_, ?_⟩))
      · intro s h
        exact RawConfig.noConfusion h
      · intro entries h
        exact RawConfig.noConfusion h
    | Array items =>
      refine iff_of_true ⟨_, rfl⟩ (Or.inr (Or.inl ⟨RawConfig.Array items, rfl, ?_, ?_⟩))
      · intro s h
        exact RawConfig.noConfusion h
      · intro entries h
        exact RawConfig.noConfusion h
    | String s =>
      refine iff_of_false ?_ ?_
      · rintro ⟨msg, h⟩
        simp [build_action_key_sequence] at h
      · rintro (h | ⟨v, hv, hnstr, hnhash⟩ | ⟨entries, he, hseq⟩ | ⟨entries, n, he, hcount, hn⟩)
        · exact Option.noConfusion h
        · exact hnstr s (Option.some.inj hv).symm
        · exact RawConfig.noConfusion (Option.some.inj he)
        · exact RawConfig.noConfusion (Option.some.inj he)
    | Hash entries =>
      cases hs : get_string entries "sequence" with
      | none =>
        exact iff_of_true ⟨_, hseq_msg entries hs⟩ (Or.inr (Or.inr (Or.inl ⟨entries, rfl, hs⟩)))
      | some sequence =>
        cases hc : get_integer entries "count" with
        | none =>
          refine iff_of_false ?_ ?_
          · rintro ⟨msg, h⟩
            simp [build_action_key_sequence, hs, hc] at h
          · rintro (h | ⟨v, hv, hnstr, hnhash⟩ | ⟨entries2, he, hseq⟩ | ⟨entries2, n, he, hcount, hn⟩)
            · exact Option.noConfusion h
            · exact hnhash entries (Option.some.inj hv).symm
            · obtain rfl := RawConfig.Hash.inj (Option.some.inj he)
              rw [hs] at hseq
              exact Option.noConfusion hseq
            · obtain rfl := RawConfig.Hash.inj (Option.some.inj he)
              rw [hc] at hcount
              exact Option.noConfusion hcount
        | some n =>
          by_cases hneg : n < 0
          · exact iff_of_true ⟨_, hneg_msg entries sequence n hs hc hneg⟩
              (Or.inr (Or.inr (Or.inr ⟨entries, n, rfl, hc, hneg⟩)))
          · refine iff_of_false ?_ ?_
            · rintro ⟨msg, h⟩
              simp [build_action_key_sequence, hs, hc, hneg] at h
            · rintro (h | ⟨v, hv, hnstr, hnhash⟩ | ⟨entries2, he, hseq⟩ | ⟨entries2, n2, he, hcount, hn⟩)
              · exact Option.noConfusion h
              · exact hnhash entries (Option.some.inj hv).symm
              · obtain rfl := RawConfig.Hash.inj (Option.some.inj he)
                rw [hs] at hseq
                exact Option.noConfusion hseq
              · obtain rfl := RawConfig.Hash.inj (Option.some.inj he)
                rw [hc] at hcount
                exact hneg ((Option.some.inj hcount) ▸ hn)

/-- Witness for C4: a hash whose `sequence` is the string "a" and whose
`count` is the integer -2 resolves to the exact negative-count error message
naming the found value. -/
theorem build_action_key_sequence_error_iff_witness :
    build_action_key_sequence
        (some (RawConfig.Hash [("sequence", RawConfig.String "a"), ("count", RawConfig.Integer (-2))]))
      = Except.error (ConfigError.InvalidConfig
          "Action key_sequence: count should be 0 or more, found -2") := by
  have h := build_action_key_sequence_error_iff.2.2
    [("sequence", RawConfig.String "a"), ("count", RawConfig.Integer (-2))] "a" (-2)
    rfl rfl (by decide)
  exact h.trans (by rfl)

/-- C6: a key-sequence action given as a bare string, or as a hash with a
string `sequence` field and no `count` field at all, resolves to Ok with the
repeat count defaulted to exactly 1. -/
theorem key_sequence_count_defaults_to_one :
    (∀ sequence, build_action_key_sequence (some (RawConfig.String sequence))
        = Except.ok (Action.KeySequence sequence 1)) ∧
    (∀ entries sequence, get_string entries "sequence" = some sequence →
      hash_lookup entries "count" = none →
      build_action_key_sequence (some (RawConfig.Hash entries))
        = Except.ok (Action.KeySequence sequence 1)) := by
  constructor
  · intro sequence
    rfl
  · intro entries sequence hs hc
    have hci : get_integer entries "count" = none := by
      unfold get_integer
      rw [hc]
    simp [build_action_key_sequence, hs, hci]

/-- Witness for C6: a hash holding only a `sequence` field resolves with
count 1, and so does the bare string form. -/
theorem key_sequence_count_defaults_to_one_witness :
    build_action_key_sequence (some (RawConfig.Hash [("sequence", RawConfig.String "x")]))
      = Except.ok (Action.KeySequence "x" 1) :=
  key_sequence_count_defaults_to_one.2 [("sequence", RawConfig.String "x")] "x" rfl rfl

/-- Counterexample to C10: the hash {count: "two"} has a `count` field that is
present and not an integer, yet `build_action_key_sequence` does not return
Ok with count 1 on it — the hash lacks a `sequence` field, so resolution
returns the missing-sequence error instead. The claim holds only for hashes
that also carry a string `sequence` field. -/
theorem nonint_count_without_sequence_is_an_error :
    build_action_key_sequence (some (RawConfig.Hash [("count", RawConfig.String "two")]))
      = Except.error (ConfigError.InvalidConfig
          "Action key_sequence: data field doesn't contain a 'sequence' field") :=
  rfl

/-- C10 amended: for every hash with a string `sequence` field whose `count`
field is present but not an integer (for example a string or a float),
`build_action_key_sequence` returns Ok with count 1 — the wrongly-typed
count is silently replaced by the default instead of producing a
ConfigError. -/
theorem nonint_count_silently_defaults
    (entries : List (String × RawConfig)) (sequence : String) (v : RawConfig)
    (hs : get_string entries "sequence" = some sequence)
    (hc : hash_lookup entries "count" = some v)
    (hv : ∀ i : Int, v ≠ RawConfig.Integer i) :
    build_action_key_sequence (some (RawConfig.Hash entries))
      = Except.ok (Action.KeySequence sequence 1) := by
  have hci : get_integer entries "count" = none := by
    unfold get_integer
    rw [hc]
    cases v with
    | Integer i => exact absurd rfl (hv i)
    | Null => rfl
    | Bool b => rfl
    | Float t => rfl
    | String s => rfl
    | Array items => rfl
    | Hash entries2 => rfl
  simp [build_action_key_sequence, hs, hci]

/-- Witness for C10 amended: {sequence: "x", count: "two"} resolves to Ok with
count 1. -/
theorem nonint_count_silently_defaults_witness :
    build_action_key_sequence (some (RawConfig.Hash
        [("sequence", RawConfig.String "x"), ("count", RawConfig.String "two")]))
      = Except.ok (Action.KeySequence "x" 1) :=
  nonint_count_silently_defaults
    [("sequence", RawConfig.String "x"), ("count", RawConfig.String "two")]
    "x" (RawConfig.String "two") rfl rfl (fun _ h => RawConfig.noConfusion h)

end MMPD
